import Mathlib

/-!
Shallow embedding of the video-compressor core (`ffmpeg_wrapper.py`,
`conversion_utils.py`).  External effects (the `ffprobe`/`ffmpeg` child
processes and the filesystem) are modelled explicitly: probe results and
process outcomes come from an `Env` record of oracles, and the filesystem
is a list of the paths currently present, threaded through `convert_file`
and `process_media_library`.
-/

/-- One elementary stream as reported by the prober (`ffprobe` JSON entry):
absolute index, `codec_type`, `codec_name`, and the optional
`tags.language` value. -/
structure StreamDesc where
  index : Nat
  codec_type : String
  codec_name : String
  language : Option String
deriving DecidableEq

/-- Per-run configuration as read from the `config` dict (each field holds
the `config.get(key, default)` value used by the code; `quality_level` is
already stringified as the code does with `str(...)`). -/
structure Config where
  gpu_type : String
  quality_level : String
  h265_profile : String
  audio_codec : String
  audio_quality : String
  dry_run : Bool
  skip_existing : Bool
deriving DecidableEq

/-- The text-based subtitle codecs accepted by `determine_track_indices`
(`['srt', 'ass', 'ssa', 'subrip', 'mov_text']`). -/
def textSubCodecs : List String := ["srt", "ass", "ssa", "subrip", "mov_text"]

/-- ASCII lowercasing of one character (the `str.lower()` effect on the
ASCII range, which covers language tags, codec names and the file paths
compared by the code). -/
def lowerChar (c : Char) : Char :=
  if c.toNat < 65 then c else if 90 < c.toNat then c else Char.ofNat (c.toNat + 32)

/-- Model of `s.lower()` over the ASCII range. -/
def lowerStr (s : String) : String := String.mk (s.data.map lowerChar)

/-- Model of `stream.get('tags', \x7b\x7d).get('language', '').lower()`. -/
def streamLang (st : StreamDesc) : String := lowerStr (st.language.getD "")

/-- Loop body of `determine_track_indices`: walks the streams in order,
recording the first matching audio index and the first matching subtitle
index (as decimal strings, mirroring `str(stream['index'])`). -/
def tracksAux : List StreamDesc → Option String → Option String → Option String × Option String
  | [], a, s => (a, s)
  | st :: rest, a, s =>
    if st.codec_type == "audio" then
      tracksAux rest
        (if streamLang st == "eng" && a.isNone then some (Nat.repr st.index) else a) s
    else if st.codec_type == "subtitle" then
      tracksAux rest a
        (if streamLang st == "eng" && textSubCodecs.contains st.codec_name && s.isNone
         then some (Nat.repr st.index) else s)
    else
      tracksAux rest a s

/-- Model of `determine_track_indices(streams_info)`: `none` models a missing/empty
probe result (the `if not streams_info or 'streams' not in streams_info`
guard); otherwise the list of stream descriptors is scanned in order. -/
def determine_track_indices (streams_info : Option (List StreamDesc)) :
    Option String × Option String :=
  match streams_info with
  | none => (none, none)
  | some streams => tracksAux streams none none

/-- Model of `verify_output(filepath)`: the argument is the re-probe result for the
temporary file (`get_stream_info` returning `None`, or a parsed result
lacking a usable stream list, is modelled as `none`).  True iff some
stream has `codec_type == 'video'` and `codec_name == 'hevc'`. -/
def verify_output (probeResult : Option (List StreamDesc)) : Bool :=
  match probeResult with
  | none => false
  | some streams =>
    streams.any (fun st => st.codec_type == "video" && st.codec_name == "hevc")

/-- Model of `build_ffmpeg_command(input_filepath, temp_output_filepath, stream_info,
eng_audio_idx, eng_sub_idx, config)`.  Mirrors the Python construction
branch for branch; note the Python function never reads `stream_info`
(the parameter is kept for signature fidelity) and always returns the
assembled list. -/
def build_ffmpeg_command (input_filepath temp_output_filepath : String)
    (stream_info : Option (List StreamDesc))
    (eng_audio_idx eng_sub_idx : Option String) (config : Config) : List String :=
  let q := config.quality_level
  let prof := config.h265_profile
  let videoPart :=
    if config.gpu_type == "nvidia" then
      ["-c:v", "hevc_nvenc", "-preset", "p5", "-cq", q, "-profile:v", prof]
        ++ (if prof == "main10" then ["-pix_fmt", "p010le"] else [])
    else if config.gpu_type == "intel" then
      ["-c:v", "hevc_qsv", "-preset:v", "medium", "-global_quality", q, "-profile:v", prof]
        ++ (if prof == "main10" then ["-pix_fmt", "p010le"] else [])
    else if config.gpu_type == "amd" then
      ["-c:v", "hevc_amf", "-rc", "cqp", "-qp_i", q, "-qp_p", q, "-qp_b", q,
        "-usage", "transcoding", "-profile", prof]
        ++ (if prof == "main10" then ["-pix_fmt", "p010le"] else [])
    else
      ["-c:v", "libx265", "-preset", "medium", "-crf", q, "-profile:v", prof]
        ++ (if prof == "main10" then ["-pix_fmt", "yuv420p10le"] else [])
  let audioMap :=
    match eng_audio_idx with
    | some idx => ["-map", "0:" ++ idx]
    | none => ["-map", "0:a:0?"]
  let audioFlags :=
    (if config.audio_codec == "copy" then ["-c:a:0", "copy"]
     else ["-c:a:0", config.audio_codec, "-q:a:0", config.audio_quality])
      ++ ["-disposition:a:0", "default"]
  let subPart :=
    match eng_sub_idx with
    | some sidx => ["-map", "0:" ++ sidx, "-c:s:0", "mov_text", "-disposition:s:0", "default"]
    | none => []
  ["ffmpeg", "-y", "-i", input_filepath, "-map", "0:v:0"]
    ++ videoPart ++ audioMap ++ audioFlags ++ subPart
    ++ ["-map_chapters", "0", "-movflags", "+faststart", temp_output_filepath]

example :
    determine_track_indices (some
      [⟨0, "video", "h264", none⟩,
       ⟨1, "audio", "aac", some "fre"⟩,
       ⟨2, "audio", "aac", some "eng"⟩,
       ⟨3, "subtitle", "subrip", some "eng"⟩]) = (some "2", some "3") := by decide

/-- Helper for `splitext`: scans the reversed character list of a path for
the last `.` of the final path component, stopping at the last `/`.
`acc` accumulates (in forward order) the characters seen after that dot.
Returns the extension tail and the reversed prefix before the dot. -/
def extScan (acc : List Char) : List Char → Option (List Char × List Char)
  | [] => none
  | c :: rest =>
    if c = '/' then none
    else if c = '.' then some (acc, rest)
    else extScan (c :: acc) rest

/-- Model of `os.path.splitext(p)` (POSIX rules: the extension starts at the last
dot of the last component, and a component consisting only of leading dots
has no extension). -/
def splitext (p : String) : String × String :=
  match extScan [] p.data.reverse with
  | some (tail, rootRev) =>
    if (rootRev.takeWhile (fun c => c != '/')).any (fun c => c != '.') then
      (String.mk rootRev.reverse, String.mk ('.' :: tail))
    else (p, "")
  | none => (p, "")

/-- Computes `base + ".mp4"` — the final output path for an input path. -/
def finalPath (p : String) : String := (splitext p).1 ++ ".mp4"

/-- Computes `base + ".temp.mp4"` — the temporary output path for an input path. -/
def tempPath (p : String) : String := (splitext p).1 ++ ".temp.mp4"

example : splitext "movie.mkv" = ("movie", ".mkv") := by decide
example : tempPath "a/movie.mkv" = "a/movie.temp.mp4" := by decide
example : splitext "a/.mkv" = ("a/.mkv", "") := by decide

/-- The filesystem is the list of paths currently present. -/
def fsRemove (fs : List String) (p : String) : List String :=
  fs.filter (fun q => q != p)

/-- Model of `os.rename(src, dst)` with POSIX overwrite semantics on the path-set
model: `src` disappears, `dst` is present. -/
def fsRename (fs : List String) (src dst : String) : List String :=
  dst :: fsRemove (fsRemove fs src) dst

/-- Oracles for the external world, keyed by the input path being
processed: `probe path` is the parsed `ffprobe` result for `path` (`none`
on any probe failure), `ffexit`/`fferr` are the encoder's exit code and
captured stderr, `temp_created` says whether the encoder left a temporary
output file, and `rename_ok` says whether the `os.rename` step succeeds
(false models an `OSError` during replacement). -/
structure Env where
  probe : String → Option (List StreamDesc)
  ffexit : String → Nat
  fferr : String → String
  temp_created : String → Bool
  rename_ok : String → Bool

/-- Result of `convert_file`: the returned boolean, the filesystem after
the call, the synthesized command if `build_ffmpeg_command` was reached
(`none` when it was never called), whether the encoder process was run,
and the concise failure diagnostic logged on a nonzero encoder exit. -/
structure CFOut where
  ok : Bool
  fs : List String
  built : Option (List String)
  encoderRun : Bool
  diag : Option String

/-- Computes `process.stderr.strip().splitlines()[-10:]` joined with newlines. -/
def conciseError (stderr : String) : String :=
  String.intercalate "\n"
    (let ls := stderr.trim.splitOn "\n"
     ls.drop (ls.length - 10))

/-- Model of `convert_file(input_filepath, config)` with the external world supplied
by `env` and the filesystem by `fs`.  Mirrors the Python control flow:
dry-run branch; probe; track selection; command construction; stale temp
removal; encoder run; verification gate; replacement (removing a
different-named original before the rename, and cleaning up the temp file
when the rename raises); nonzero-exit cleanup with a 10-line diagnostic. -/
def convert_file (input : String) (config : Config) (env : Env) (fs : List String) : CFOut :=
  let final := finalPath input
  let temp := tempPath input
  if config.dry_run then
    match env.probe input with
    | none => ⟨true, fs, none, false, none⟩
    | some si =>
      let ts := determine_track_indices (some si)
      let cmd := build_ffmpeg_command input temp (some si) ts.1 ts.2 config
      if cmd.isEmpty then ⟨false, fs, some cmd, false, none⟩
      else ⟨true, fs, some cmd, false, none⟩
  else
    match env.probe input with
    | none => ⟨false, fs, none, false, none⟩
    | some si =>
      let ts := determine_track_indices (some si)
      let cmd := build_ffmpeg_command input temp (some si) ts.1 ts.2 config
      if cmd.isEmpty then ⟨false, fs, some cmd, false, none⟩
      else
        let fs1 := fsRemove fs temp
        let fs2 := if env.temp_created input then temp :: fs1 else fs1
        if env.ffexit input == 0 then
          if verify_output (env.probe temp) then
            if fs2.contains input && lowerStr input != lowerStr final then
              let fs3 := fsRemove fs2 input
              if env.rename_ok input then
                ⟨true, fsRename fs3 temp final, some cmd, true, none⟩
              else
                ⟨false, fsRemove fs3 temp, some cmd, true, none⟩
            else
              if env.rename_ok input then
                ⟨true, fsRename fs2 temp final, some cmd, true, none⟩
              else
                ⟨false, fsRemove fs2 temp, some cmd, true, none⟩
          else
            ⟨false, fsRemove fs2 temp, some cmd, true, none⟩
        else
          ⟨false, fsRemove fs2 temp, some cmd, true, some (conciseError (env.fferr input))⟩

/-- The orchestrator's per-run counters (`processed_count`, `skipped_count`,
`failed_count`). -/
structure Counters where
  processed : Nat
  skipped : Nat
  failed : Nat
deriving DecidableEq

/-- Loop-body outcome for one candidate file in `process_media_library`:
updated counters and filesystem, the `file_status` string, and whether
`convert_file` (the conversion pipeline) was invoked. -/
structure StepOut where
  counters : Counters
  fs : List String
  status : String
  invoked : Bool

/-- One iteration of the `process_media_library` loop for `input`:
the skip-existing check against the final-name output, else a call to
`convert_file` with the counter bookkeeping. -/
def process_one (config : Config) (env : Env) (input : String)
    (c : Counters) (fs : List String) : StepOut :=
  let final := finalPath input
  if config.skip_existing && fs.contains final then
    if lowerStr input == lowerStr final then
      ⟨⟨c.processed, c.skipped + 1, c.failed⟩, fs, "SKIPPED (already MP4)", false⟩
    else
      ⟨⟨c.processed, c.skipped + 1, c.failed⟩, fs, "SKIPPED (exists)", false⟩
  else
    let r := convert_file input config env fs
    if r.ok then ⟨⟨c.processed + 1, c.skipped, c.failed⟩, r.fs, "CONVERTED", true⟩
    else ⟨⟨c.processed, c.skipped, c.failed + 1⟩, r.fs, "FAILED", true⟩

/-- The orchestrator's loop over the discovered candidate files. -/
def pml_loop (config : Config) (env : Env) :
    List String → Counters → List String → Counters × List String
  | [], c, fs => (c, fs)
  | f :: rest, c, fs =>
    let out := process_one config env f c fs
    pml_loop config env rest out.counters out.fs

/-- Summary of `process_media_library`: the `results` dict counters plus the
final filesystem.  Discovery (`os.walk` plus extension filtering) is
environmental, so the list of discovered candidate files is an input. -/
structure PMLResult where
  scanned : Nat
  processed : Nat
  skipped : Nat
  failed : Nat
  fs : List String

/-- Model of `process_media_library(root_dir, config)` over the discovered candidate
files `files`. -/
def process_media_library (files : List String) (config : Config) (env : Env)
    (fs : List String) : PMLResult :=
  let out := pml_loop config env files ⟨0, 0, 0⟩ fs
  ⟨files.length, out.1.processed, out.1.skipped, out.1.failed, out.2⟩

theorem extScan_no_dot (rev : List Char) : ∀ acc tail rootRev,
    extScan acc rev = some (tail, rootRev) →
    (∀ c ∈ acc, c ≠ '.') → ∀ c ∈ tail, c ≠ '.' := by
  induction rev with
  | nil => intro acc tail rootRev h; simp [extScan] at h
  | cons c rest ih =>
    intro acc tail rootRev h hacc
    by_cases hc : c = '/'
    · simp [extScan, hc] at h
    · by_cases hd : c = '.'
      · simp [extScan, hc, hd] at h
        obtain ⟨h1, _⟩ := h
        subst h1; exact hacc
      · simp only [extScan, if_neg hc, if_neg hd] at h
        refine ih _ _ _ h ?_
        intro x hx
        rcases List.mem_cons.mp hx with h' | h'
        · subst h'; exact hd
        · exact hacc x h'

theorem extScan_decomp (rev : List Char) : ∀ acc tail rootRev,
    extScan acc rev = some (tail, rootRev) →
    acc.reverse ++ rev = tail.reverse ++ '.' :: rootRev := by
  induction rev with
  | nil => intro acc tail rootRev h; simp [extScan] at h
  | cons c rest ih =>
    intro acc tail rootRev h
    by_cases hc : c = '/'
    · simp [extScan, hc] at h
    · by_cases hd : c = '.'
      · simp [extScan, hc, hd] at h
        obtain ⟨h1, h2⟩ := h
        subst h1; subst h2; subst hd; rfl
      · simp only [extScan, if_neg hc, if_neg hd] at h
        have := ih _ _ _ h
        calc acc.reverse ++ c :: rest = (c :: acc).reverse ++ rest := by simp
          _ = tail.reverse ++ '.' :: rootRev := this

/-- The temporary output path never coincides with the input path. -/
theorem tempPath_ne (p : String) : tempPath p ≠ p := by
  unfold tempPath splitext
  cases hscan : extScan [] p.data.reverse with
  | none =>
    intro h
    have := congrArg String.length h
    simp [String.length_append] at this
    have h9 : (".temp.mp4" : String).length = 9 := by decide
    omega
  | some pr =>
    obtain ⟨tail, rootRev⟩ := pr
    by_cases hstem : (rootRev.takeWhile (fun c => c != '/')).any (fun c => c != '.') = true
    · simp only [hstem, if_pos]
      intro h
      have hdata := congrArg String.data h
      rw [String.data_append] at hdata
      have hdecomp := extScan_decomp _ [] tail rootRev hscan
      simp only [List.reverse_nil, List.nil_append] at hdecomp
      have hp : p.data = rootRev.reverse ++ '.' :: tail := by
        have := congrArg List.reverse hdecomp
        simpa using this
      rw [hp] at hdata
      have hmk : (String.mk rootRev.reverse).data = rootRev.reverse := rfl
      rw [hmk] at hdata
      have htail : (".temp.mp4" : String).data = '.' :: tail :=
        List.append_cancel_left hdata
      have htail' : tail = ['t', 'e', 'm', 'p', '.', 'm', 'p', '4'] := by
        have hlit : (".temp.mp4" : String).data
            = ['.', 't', 'e', 'm', 'p', '.', 'm', 'p', '4'] := by decide
        rw [hlit] at htail
        exact (List.cons.injEq _ _ _ _ ▸ htail).2.symm
      have hnd := extScan_no_dot _ [] tail rootRev hscan (by intro c hc; simp at hc)
      rw [htail'] at hnd
      exact hnd '.' (by decide) rfl
    · simp only [hstem, if_neg, Bool.false_eq_true, not_false_eq_true]
      intro h
      have := congrArg String.length h
      simp [String.length_append] at this
      have h9 : (".temp.mp4" : String).length = 9 := by decide
      omega

/-- The function `build_ffmpeg_command` always returns a nonempty argument list. -/
theorem build_ffmpeg_command_ne_nil (i t : String) (si : Option (List StreamDesc))
    (a s : Option String) (c : Config) : build_ffmpeg_command i t si a s c ≠ [] := by
  intro h
  simp [build_ffmpeg_command] at h

theorem build_ffmpeg_command_isEmpty (i t : String) (si : Option (List StreamDesc))
    (a s : Option String) (c : Config) :
    (build_ffmpeg_command i t si a s c).isEmpty = false := by
  simp [List.isEmpty_eq_false, build_ffmpeg_command_ne_nil]

theorem fsRemove_not_mem (fs : List String) (p : String) : p ∉ fsRemove fs p := by
  simp [fsRemove]

theorem fsRemove_mem_ne {q p : String} (h : q ≠ p) (fs : List String) :
    q ∈ fsRemove fs p ↔ q ∈ fs := by
  simp [fsRemove, h]

/-- Left-biased choice on options (first-match accumulation). -/
def orO (a b : Option String) : Option String :=
  match a with
  | some x => some x
  | none => b

/-- Spec-side audio predicate: an audio stream whose language tag
case-insensitively equals "eng". -/
def audioPredicate (st : StreamDesc) : Bool :=
  st.codec_type == "audio" && streamLang st == "eng"

/-- Spec-side subtitle predicate: a subtitle stream whose language tag
case-insensitively equals "eng" and whose codec is text-based. -/
def subtitlePredicate (st : StreamDesc) : Bool :=
  st.codec_type == "subtitle" && streamLang st == "eng"
    && textSubCodecs.contains st.codec_name

theorem orO_none (a : Option String) : orO a none = a := by
  cases a <;> rfl

theorem tracksAux_eq (l : List StreamDesc) : ∀ a s,
    tracksAux l a s =
      (orO a ((l.find? audioPredicate).map fun st => Nat.repr st.index),
       orO s ((l.find? subtitlePredicate).map fun st => Nat.repr st.index)) := by
  induction l with
  | nil => intro a s; simp [tracksAux, orO_none]
  | cons st rest ih =>
    intro a s
    by_cases hA : st.codec_type = "audio"
    · have hS : (st.codec_type == "subtitle") = false := by simp [hA]
      by_cases hE : streamLang st = "eng"
      · have hap : audioPredicate st = true := by simp [audioPredicate, hA, hE]
        have hsp : subtitlePredicate st = false := by simp [subtitlePredicate, hS]
        cases a with
        | none =>
          simp [tracksAux, hA, hE, ih, List.find?, hap, hsp, orO]
        | some x =>
          simp [tracksAux, hA, hE, ih, List.find?, hap, hsp, orO]
      · have hap : audioPredicate st = false := by simp [audioPredicate, hE]
        have hsp : subtitlePredicate st = false := by simp [subtitlePredicate, hS]
        simp [tracksAux, hA, hE, ih, List.find?, hap, hsp]
    · have hA' : (st.codec_type == "audio") = false := by simp [hA]
      by_cases hB : st.codec_type = "subtitle"
      · have hap : audioPredicate st = false := by simp [audioPredicate, hA']
        by_cases hE : streamLang st = "eng"
        · by_cases hC : st.codec_name ∈ textSubCodecs
          · have hsp : subtitlePredicate st = true := by
              simp [subtitlePredicate, hB, hE, hC]
            cases s with
            | none =>
              simp [tracksAux, hA', hB, hE, hC, ih, List.find?, hap, hsp, orO]
            | some x =>
              simp [tracksAux, hA', hB, hE, hC, ih, List.find?, hap, hsp, orO]
          · have hsp : subtitlePredicate st = false := by
              simp [subtitlePredicate, hC]
            simp [tracksAux, hA', hB, hE, hC, ih, List.find?, hap, hsp]
        · have hsp : subtitlePredicate st = false := by simp [subtitlePredicate, hE]
          simp [tracksAux, hA', hB, hE, ih, List.find?, hap, hsp]
      · have hB' : (st.codec_type == "subtitle") = false := by simp [hB]
        have hap : audioPredicate st = false := by simp [audioPredicate, hA']
        have hsp : subtitlePredicate st = false := by simp [subtitlePredicate, hB']
        simp [tracksAux, hA', hB', ih, List.find?, hap, hsp]

/-- Each candidate file contributes exactly one unit to exactly one of the
three counters. -/
theorem process_one_sum (config : Config) (env : Env) (f : String)
    (c : Counters) (fs : List String) :
    (process_one config env f c fs).counters.processed
      + (process_one config env f c fs).counters.skipped
      + (process_one config env f c fs).counters.failed
      = c.processed + c.skipped + c.failed + 1 := by
  by_cases h1 : (config.skip_existing && fs.contains (finalPath f)) = true
  · by_cases h2 : (lowerStr f == lowerStr (finalPath f)) = true
    · simp only [process_one, h1, h2, if_true]
      omega
    · simp only [process_one, h1, if_true, Bool.not_eq_true] at *
      simp only [h2, Bool.false_eq_true, if_false]
      omega
  · by_cases h3 : (convert_file f config env fs).ok = true
    · simp only [process_one, Bool.not_eq_true] at h1 ⊢
      simp only [h1, Bool.false_eq_true, if_false, h3, if_true]
      omega
    · simp only [process_one, Bool.not_eq_true] at h1 h3 ⊢
      simp only [h1, h3, Bool.false_eq_true, if_false]
      omega

/-- A non-dry run whose probe fails returns failure and leaves everything
untouched. -/
theorem convert_file_probe_none (input : String) (config : Config) (env : Env)
    (fs : List String) (hdry : config.dry_run = false)
    (hp : env.probe input = none) :
    convert_file input config env fs = ⟨false, fs, none, false, none⟩ := by
  simp [convert_file, hdry, hp]

/-- Master equation for a non-dry run with a successful probe: the
construction step never fails, so the run reduces to the explicit
encode/verify/replace decision tree. -/
theorem convert_file_run_eq (input : String) (config : Config) (env : Env)
    (fs : List String) (si : List StreamDesc) (hdry : config.dry_run = false)
    (hp : env.probe input = some si) :
    convert_file input config env fs =
      (let temp := tempPath input
       let final := finalPath input
       let cmd := build_ffmpeg_command input temp (some si)
         (determine_track_indices (some si)).1 (determine_track_indices (some si)).2 config
       let fs1 := fsRemove fs temp
       let fs2 := if env.temp_created input then temp :: fs1 else fs1
       if env.ffexit input == 0 then
         if verify_output (env.probe temp) then
           if fs2.contains input && lowerStr input != lowerStr final then
             if env.rename_ok input then
               ⟨true, fsRename (fsRemove fs2 input) temp final, some cmd, true, none⟩
             else
               ⟨false, fsRemove (fsRemove fs2 input) temp, some cmd, true, none⟩
           else
             if env.rename_ok input then
               ⟨true, fsRename fs2 temp final, some cmd, true, none⟩
             else
               ⟨false, fsRemove fs2 temp, some cmd, true, none⟩
         else ⟨false, fsRemove fs2 temp, some cmd, true, none⟩
       else
         ⟨false, fsRemove fs2 temp, some cmd, true,
           some (conciseError (env.fferr input))⟩) := by
  simp [convert_file, hdry, hp, build_ffmpeg_command_isEmpty]

/-- Membership of a path other than `temp` in the post-encode filesystem
is unchanged. -/
theorem mem_fs2_iff {q : String} (temp : String) (b : Bool) (fs : List String)
    (hq : q ≠ temp) :
    (q ∈ (if b then temp :: fsRemove fs temp else fsRemove fs temp)) ↔ q ∈ fs := by
  cases b <;> simp [fsRemove_mem_ne hq, hq]

theorem pml_loop_sum (config : Config) (env : Env) : ∀ (files : List String)
    (c : Counters) (fs : List String),
    (pml_loop config env files c fs).1.processed
      + (pml_loop config env files c fs).1.skipped
      + (pml_loop config env files c fs).1.failed
      = c.processed + c.skipped + c.failed + files.length := by
  intro files
  induction files with
  | nil => intro c fs; simp [pml_loop]
  | cons f rest ih =>
    intro c fs
    simp only [pml_loop]
    rw [ih]
    have := process_one_sum config env f c fs
    simp only [List.length_cons]
    omega

/-- A default CPU configuration for concrete runs. -/
def cfgCpu : Config := ⟨"cpu", "23", "main", "aac", "2", false, false⟩

/-- A descriptor set with no video stream. -/
def noVideoStreams : List StreamDesc := [⟨1, "audio", "aac", some "eng"⟩]

/-- C2 counterexample: on a descriptor set containing no video stream,
`build_ffmpeg_command` still returns a (nonempty) command list rather
than nil — construction never fails, contradicting the claim's "for
every descriptor set containing no video stream it returns nil". -/
theorem C2_counterexample :
    noVideoStreams.all (fun st => st.codec_type != "video") = true ∧
    build_ffmpeg_command "movie.mkv" "movie.temp.mp4" (some noVideoStreams)
      none none cfgCpu ≠ [] := by
  constructor
  · decide
  · exact build_ffmpeg_command_ne_nil _ _ _ _ _ _

/-- C2 (amended): `build_ffmpeg_command` never returns nil — for every
input path, temp path, descriptor set (with or without a video stream),
selection and configuration, it returns a nonempty argument list; the
spec's "returns nil only if no video stream exists" holds only vacuously,
and there is no deterministic construction-failure case at all. -/
theorem C2_never_nil (i t : String) (si : Option (List StreamDesc))
    (a s : Option String) (c : Config) :
    build_ffmpeg_command i t si a s c ≠ [] ∧
    0 < (build_ffmpeg_command i t si a s c).length := by
  refine ⟨build_ffmpeg_command_ne_nil i t si a s c, ?_⟩
  cases h : build_ffmpeg_command i t si a s c with
  | nil => exact absurd h (build_ffmpeg_command_ne_nil i t si a s c)
  | cons x xs => simp

/-- The selection-policy example descriptors from the spec. -/
def exampleStreams : List StreamDesc :=
  [⟨0, "video", "h264", none⟩,
   ⟨1, "audio", "aac", some "fre"⟩,
   ⟨2, "audio", "aac", some "eng"⟩,
   ⟨3, "subtitle", "subrip", some "eng"⟩]

/-- C3 counterexample: a subtitle stream whose raw language tag is "ENG"
(so it does not literally equal "eng") with a text-based codec is still
selected by `determine_track_indices` — the code compares the lowercased
tag, so the claim's literal "language tag equals eng" condition for
subtitles does not hold as stated. -/
theorem C3_counterexample :
    (determine_track_indices
      (some [⟨0, "subtitle", "subrip", some "ENG"⟩])).2 = some "0" ∧
    (("ENG" : String) = "eng") = False := by
  constructor
  · decide
  · decide

/-- C3 (amended): for every ordered descriptor set, the selected audio
track is the first audio stream whose language tag case-insensitively
equals "eng" (absent if none), and the selected subtitle track is the
first subtitle stream whose language tag case-insensitively equals "eng"
and whose codec is in the text-based codec set (absent otherwise); each
selection is a single optional index, so at most one audio and one
subtitle track are ever selected; on the spec's example descriptors the
result is audio index 2 and subtitle index 3. -/
theorem C3_selector :
    (∀ streams : List StreamDesc,
      determine_track_indices (some streams) =
        ((streams.find? audioPredicate).map fun st => Nat.repr st.index,
         (streams.find? subtitlePredicate).map fun st => Nat.repr st.index)) ∧
    determine_track_indices (some exampleStreams) = (some "2", some "3") := by
  constructor
  · intro streams
    simp [determine_track_indices, tracksAux_eq, orO]
  · decide

/-- C7: command synthesis is pure — two calls of `build_ffmpeg_command`
on identical input path, temp output path, descriptor set, selected
indices and configuration yield identical argument lists. -/
theorem C7_build_deterministic (i t : String) (si : Option (List StreamDesc))
    (a s : Option String) (c : Config) (i' t' : String)
    (si' : Option (List StreamDesc)) (a' s' : Option String) (c' : Config)
    (h1 : i = i') (h2 : t = t') (h3 : si = si') (h4 : a = a') (h5 : s = s')
    (h6 : c = c') :
    build_ffmpeg_command i t si a s c = build_ffmpeg_command i' t' si' a' s' c' := by
  subst h1; subst h2; subst h3; subst h4; subst h5; subst h6; rfl

/-- Concrete instantiation of `C7_build_deterministic`. -/
theorem C7_build_deterministic_witness :
    ("movie.mkv" : String) = "movie.mkv" ∧ cfgCpu = cfgCpu ∧
    build_ffmpeg_command "movie.mkv" "movie.temp.mp4" (some exampleStreams)
        (some "2") (some "3") cfgCpu =
      build_ffmpeg_command "movie.mkv" "movie.temp.mp4" (some exampleStreams)
        (some "2") (some "3") cfgCpu :=
  ⟨rfl, rfl,
    C7_build_deterministic "movie.mkv" "movie.temp.mp4" (some exampleStreams)
      (some "2") (some "3") cfgCpu "movie.mkv" "movie.temp.mp4"
      (some exampleStreams) (some "2") (some "3") cfgCpu
      rfl rfl rfl rfl rfl rfl⟩

/-- C4: `verify_output` returns a boolean (never raises — it is total) and
is true iff the re-probe succeeded and some stream has kind video with
codec name hevc; and inside `convert_file` a false verification
short-circuits replacement: the call fails, the temporary file is absent
afterwards, and the original file's presence is unchanged (neither
removed nor renamed). -/
theorem C4_verify_gate :
    (∀ probeResult : Option (List StreamDesc),
      verify_output probeResult = true ↔
        ∃ streams, probeResult = some streams ∧
          ∃ st ∈ streams, st.codec_type = "video" ∧ st.codec_name = "hevc") ∧
    (∀ (input : String) (config : Config) (env : Env) (fs : List String)
        (si : List StreamDesc), config.dry_run = false →
      env.probe input = some si → env.ffexit input = 0 →
      verify_output (env.probe (tempPath input)) = false →
      (convert_file input config env fs).ok = false ∧
      tempPath input ∉ (convert_file input config env fs).fs ∧
      (input ∈ (convert_file input config env fs).fs ↔ input ∈ fs)) := by
  constructor
  · intro probeResult
    cases probeResult with
    | none => simp [verify_output]
    | some streams => simp [verify_output, List.any_eq_true]
  · intro input config env fs si hdry hp hexit hver
    rw [convert_file_run_eq input config env fs si hdry hp]
    have hne : input ≠ tempPath input := fun h => tempPath_ne input h.symm
    simp only [hexit, beq_self_eq_true, if_true, hver, Bool.false_eq_true, if_false]
    refine ⟨by trivial, fsRemove_not_mem _ _, ?_⟩
    rw [fsRemove_mem_ne hne]
    exact mem_fs2_iff (tempPath input) (env.temp_created input) fs hne

/-- Environment for the verification-failure witness: the input probes
fine, the encoder "succeeds", but re-probing the temp file fails. -/
def envC4 : Env :=
  { probe := fun p => if p == "a.mkv" then some [⟨0, "video", "h264", none⟩] else none,
    ffexit := fun _ => 0, fferr := fun _ => "", temp_created := fun _ => true,
    rename_ok := fun _ => true }

/-- Concrete instantiation of `C4_verify_gate`. -/
theorem C4_verify_gate_witness :
    cfgCpu.dry_run = false ∧
    envC4.probe "a.mkv" = some [⟨0, "video", "h264", none⟩] ∧
    envC4.ffexit "a.mkv" = 0 ∧
    verify_output (envC4.probe (tempPath "a.mkv")) = false ∧
    ((convert_file "a.mkv" cfgCpu envC4 ["a.mkv"]).ok = false ∧
     tempPath "a.mkv" ∉ (convert_file "a.mkv" cfgCpu envC4 ["a.mkv"]).fs ∧
     ("a.mkv" ∈ (convert_file "a.mkv" cfgCpu envC4 ["a.mkv"]).fs ↔
       "a.mkv" ∈ (["a.mkv"] : List String))) :=
  ⟨rfl, by decide, rfl, by decide,
    C4_verify_gate.2 "a.mkv" cfgCpu envC4 ["a.mkv"] [⟨0, "video", "h264", none⟩]
      rfl (by decide) rfl (by decide)⟩

/-- C5: on a nonzero encoder exit code, `convert_file` reports failure,
the temporary output file is absent afterwards, the original input file's
presence is unchanged, and the diagnostic is the last 10 lines of the
captured (stripped) stderr. -/
theorem C5_encode_failure (input : String) (config : Config) (env : Env)
    (fs : List String) (si : List StreamDesc) (hdry : config.dry_run = false)
    (hp : env.probe input = some si) (hexit : env.ffexit input ≠ 0) :
    (convert_file input config env fs).ok = false ∧
    tempPath input ∉ (convert_file input config env fs).fs ∧
    (input ∈ (convert_file input config env fs).fs ↔ input ∈ fs) ∧
    (convert_file input config env fs).diag =
      some (String.intercalate "\n"
        (((env.fferr input).trim.splitOn "\n").drop
          (((env.fferr input).trim.splitOn "\n").length - 10))) := by
  rw [convert_file_run_eq input config env fs si hdry hp]
  have hb : (env.ffexit input == 0) = false := by
    simpa using hexit
  have hne : input ≠ tempPath input := fun h => tempPath_ne input h.symm
  simp only [hb, Bool.false_eq_true, if_false]
  refine ⟨by trivial, fsRemove_not_mem _ _, ?_, by trivial⟩
  rw [fsRemove_mem_ne hne]
  exact mem_fs2_iff (tempPath input) (env.temp_created input) fs hne

/-- Environment for the failed-encode witness: the encoder exits 1 with a
two-line stderr. -/
def envC5 : Env :=
  { probe := fun p => if p == "b.mkv" then some [⟨0, "video", "h264", none⟩] else none,
    ffexit := fun _ => 1, fferr := fun _ => "line one\nline two",
    temp_created := fun _ => true, rename_ok := fun _ => true }

/-- Concrete instantiation of `C5_encode_failure`. -/
theorem C5_encode_failure_witness :
    cfgCpu.dry_run = false ∧
    envC5.probe "b.mkv" = some [⟨0, "video", "h264", none⟩] ∧
    envC5.ffexit "b.mkv" ≠ 0 ∧
    ((convert_file "b.mkv" cfgCpu envC5 ["b.mkv"]).ok = false ∧
     tempPath "b.mkv" ∉ (convert_file "b.mkv" cfgCpu envC5 ["b.mkv"]).fs ∧
     ("b.mkv" ∈ (convert_file "b.mkv" cfgCpu envC5 ["b.mkv"]).fs ↔
       "b.mkv" ∈ (["b.mkv"] : List String)) ∧
     (convert_file "b.mkv" cfgCpu envC5 ["b.mkv"]).diag =
       some (String.intercalate "\n"
         (((envC5.fferr "b.mkv").trim.splitOn "\n").drop
           (((envC5.fferr "b.mkv").trim.splitOn "\n").length - 10)))) :=
  ⟨rfl, by decide, by decide,
    C5_encode_failure "b.mkv" cfgCpu envC5 ["b.mkv"] [⟨0, "video", "h264", none⟩]
      rfl (by decide) (by decide)⟩

/-- A dry-run CPU configuration. -/
def cfgDry : Config := ⟨"cpu", "23", "main", "aac", "2", true, false⟩

/-- C8: with the dry-run flag set and a probe-able input, `convert_file`
succeeds, leaves the filesystem exactly as it was, runs no encoder
process, and synthesizes (through the same selector and synthesizer code
paths) a non-nil command. -/
theorem C8_dry_run_frame (input : String) (config : Config) (env : Env)
    (fs : List String) (si : List StreamDesc) (hdry : config.dry_run = true)
    (hp : env.probe input = some si) :
    (convert_file input config env fs).ok = true ∧
    (convert_file input config env fs).fs = fs ∧
    (convert_file input config env fs).encoderRun = false ∧
    (convert_file input config env fs).built =
      some (build_ffmpeg_command input (tempPath input) (some si)
        (determine_track_indices (some si)).1 (determine_track_indices (some si)).2
        config) ∧
    build_ffmpeg_command input (tempPath input) (some si)
      (determine_track_indices (some si)).1 (determine_track_indices (some si)).2
      config ≠ [] := by
  simp only [convert_file, hdry, if_true, hp, build_ffmpeg_command_isEmpty,
    Bool.false_eq_true, if_false]
  exact ⟨by trivial, by trivial, by trivial, by trivial,
    build_ffmpeg_command_ne_nil _ _ _ _ _ _⟩

/-- Environment for the dry-run witness. -/
def envC8 : Env :=
  { probe := fun p => if p == "movie.mkv" then some exampleStreams else none,
    ffexit := fun _ => 0, fferr := fun _ => "", temp_created := fun _ => false,
    rename_ok := fun _ => true }

/-- Concrete instantiation of `C8_dry_run_frame`. -/
theorem C8_dry_run_frame_witness :
    cfgDry.dry_run = true ∧
    envC8.probe "movie.mkv" = some exampleStreams ∧
    ((convert_file "movie.mkv" cfgDry envC8 ["movie.mkv"]).ok = true ∧
     (convert_file "movie.mkv" cfgDry envC8 ["movie.mkv"]).fs = ["movie.mkv"] ∧
     (convert_file "movie.mkv" cfgDry envC8 ["movie.mkv"]).encoderRun = false ∧
     (convert_file "movie.mkv" cfgDry envC8 ["movie.mkv"]).built =
       some (build_ffmpeg_command "movie.mkv" (tempPath "movie.mkv")
         (some exampleStreams) (determine_track_indices (some exampleStreams)).1
         (determine_track_indices (some exampleStreams)).2 cfgDry) ∧
     build_ffmpeg_command "movie.mkv" (tempPath "movie.mkv") (some exampleStreams)
       (determine_track_indices (some exampleStreams)).1
       (determine_track_indices (some exampleStreams)).2 cfgDry ≠ []) :=
  ⟨rfl, by decide,
    C8_dry_run_frame "movie.mkv" cfgDry envC8 ["movie.mkv"] exampleStreams
      rfl (by decide)⟩

/-- C10: in dry-run mode a probe failure is reported as success, with no
command synthesized and the filesystem untouched, while the same
environment in a real (non-dry) run reports failure. -/
theorem C10_dry_probe_failure (input : String) (config : Config) (env : Env)
    (fs : List String) (hdry : config.dry_run = true)
    (hp : env.probe input = none) :
    (convert_file input config env fs).ok = true ∧
    (convert_file input config env fs).built = none ∧
    (convert_file input config env fs).fs = fs ∧
    (convert_file input { config with dry_run := false } env fs).ok = false := by
  refine ⟨?_, ?_, ?_, ?_⟩ <;> simp [convert_file, hdry, hp]

/-- Environment for the dry-run probe-failure witness: every probe fails. -/
def envC10 : Env :=
  { probe := fun _ => none, ffexit := fun _ => 0, fferr := fun _ => "",
    temp_created := fun _ => false, rename_ok := fun _ => true }

/-- Concrete instantiation of `C10_dry_probe_failure`. -/
theorem C10_dry_probe_failure_witness :
    cfgDry.dry_run = true ∧ envC10.probe "bad.mkv" = none ∧
    ((convert_file "bad.mkv" cfgDry envC10 []).ok = true ∧
     (convert_file "bad.mkv" cfgDry envC10 []).built = none ∧
     (convert_file "bad.mkv" cfgDry envC10 []).fs = [] ∧
     (convert_file "bad.mkv" { cfgDry with dry_run := false } envC10 []).ok = false) :=
  ⟨rfl, rfl, C10_dry_probe_failure "bad.mkv" cfgDry envC10 [] rfl rfl⟩

/-- Environment for the C1 counterexample: probing and encoding succeed,
the temp file verifies as HEVC, but the `os.rename` step fails. -/
def envC1 : Env :=
  { probe := fun p =>
      if p == "movie.mkv" then some [⟨0, "video", "h264", none⟩]
      else if p == "movie.temp.mp4" then some [⟨0, "video", "hevc", none⟩]
      else none,
    ffexit := fun _ => 0, fferr := fun _ => "", temp_created := fun _ => true,
    rename_ok := fun _ => false }

/-- C1 counterexample: starting from a filesystem holding only the non-MP4
original `movie.mkv`, a run in which verification passes but the rename
step fails ends with the call reporting failure while NEITHER the
original file nor the final MP4 (nor even the temp file) is present —
the code removes the original before the rename and then also deletes
the temp file during cleanup. -/
theorem C1_counterexample :
    "movie.mkv" ∈ (["movie.mkv"] : List String) ∧
    (convert_file "movie.mkv" cfgCpu envC1 ["movie.mkv"]).ok = false ∧
    "movie.mkv" ∉ (convert_file "movie.mkv" cfgCpu envC1 ["movie.mkv"]).fs ∧
    "movie.mp4" ∉ (convert_file "movie.mkv" cfgCpu envC1 ["movie.mkv"]).fs ∧
    "movie.temp.mp4" ∉ (convert_file "movie.mkv" cfgCpu envC1 ["movie.mkv"]).fs := by
  decide

/-- C1 (amended): after every successful (converted) outcome of a real
(non-dry) run, the final MP4 is present — so at least one of the original
file and the final MP4 exists; the unamended all-outcomes form fails only
in the rename-failure window after the original was already removed. -/
theorem C1_converted_safe (input : String) (config : Config) (env : Env)
    (fs : List String) (hdry : config.dry_run = false)
    (hok : (convert_file input config env fs).ok = true) :
    finalPath input ∈ (convert_file input config env fs).fs := by
  cases hp : env.probe input with
  | none =>
    rw [convert_file_probe_none input config env fs hdry hp] at hok
    simp at hok
  | some si =>
    rw [convert_file_run_eq input config env fs si hdry hp] at hok ⊢
    cases h1 : env.ffexit input == 0 with
    | false => simp [h1] at hok
    | true =>
      cases h2 : verify_output (env.probe (tempPath input)) with
      | false => simp [h1, h2] at hok
      | true =>
        cases h4 : env.rename_ok input with
        | false => simp [h1, h2, h4, apply_ite CFOut.ok] at hok
        | true =>
          simp only [eq_self_iff_true, if_true]
          repeat' split
          all_goals simp [fsRename]

/-- Environment for the C1-amended witness: a fully successful run. -/
def envC1ok : Env :=
  { probe := fun p =>
      if p == "movie.mkv" then some [⟨0, "video", "h264", none⟩]
      else if p == "movie.temp.mp4" then some [⟨0, "video", "hevc", none⟩]
      else none,
    ffexit := fun _ => 0, fferr := fun _ => "", temp_created := fun _ => true,
    rename_ok := fun _ => true }

/-- Concrete instantiation of `C1_converted_safe`. -/
theorem C1_converted_safe_witness :
    cfgCpu.dry_run = false ∧
    (convert_file "movie.mkv" cfgCpu envC1ok ["movie.mkv"]).ok = true ∧
    finalPath "movie.mkv" ∈ (convert_file "movie.mkv" cfgCpu envC1ok ["movie.mkv"]).fs :=
  ⟨rfl, by decide,
    C1_converted_safe "movie.mkv" cfgCpu envC1ok ["movie.mkv"] rfl (by decide)⟩

/-- C6: when skip-existing is set and the final-name MP4 already exists,
the loop body classifies the file as skipped (distinguishing the
already-MP4 input from a converted sibling), increments only the skipped
counter, does not invoke the conversion pipeline (hence no encoder
process), and leaves the filesystem unchanged. -/
theorem C6_skip_existing (input : String) (config : Config) (env : Env)
    (c : Counters) (fs : List String) (hskip : config.skip_existing = true)
    (hex : fs.contains (finalPath input) = true) :
    (process_one config env input c fs).invoked = false ∧
    (process_one config env input c fs).counters.skipped = c.skipped + 1 ∧
    (process_one config env input c fs).counters.processed = c.processed ∧
    (process_one config env input c fs).counters.failed = c.failed ∧
    (process_one config env input c fs).fs = fs ∧
    (process_one config env input c fs).status =
      (if lowerStr input == lowerStr (finalPath input) then "SKIPPED (already MP4)"
       else "SKIPPED (exists)") := by
  have hex2 : finalPath input ∈ fs := by simpa using hex
  by_cases hl : lowerStr input = lowerStr (finalPath input)
  · simp [process_one, hskip, hex2, hl]
  · simp [process_one, hskip, hex2, hl]

/-- A skip-existing CPU configuration. -/
def cfgSkip : Config := ⟨"cpu", "23", "main", "aac", "2", false, true⟩

/-- Concrete instantiation of `C6_skip_existing`: `movie.mkv` with a
`movie.mp4` sibling present is skipped as "SKIPPED (exists)". -/
theorem C6_skip_existing_witness :
    cfgSkip.skip_existing = true ∧
    (["movie.mkv", "movie.mp4"] : List String).contains (finalPath "movie.mkv") = true ∧
    ((process_one cfgSkip envC10 "movie.mkv" ⟨0, 0, 0⟩ ["movie.mkv", "movie.mp4"]).invoked = false ∧
     (process_one cfgSkip envC10 "movie.mkv" ⟨0, 0, 0⟩ ["movie.mkv", "movie.mp4"]).counters.skipped =
       (⟨0, 0, 0⟩ : Counters).skipped + 1 ∧
     (process_one cfgSkip envC10 "movie.mkv" ⟨0, 0, 0⟩ ["movie.mkv", "movie.mp4"]).counters.processed =
       (⟨0, 0, 0⟩ : Counters).processed ∧
     (process_one cfgSkip envC10 "movie.mkv" ⟨0, 0, 0⟩ ["movie.mkv", "movie.mp4"]).counters.failed =
       (⟨0, 0, 0⟩ : Counters).failed ∧
     (process_one cfgSkip envC10 "movie.mkv" ⟨0, 0, 0⟩ ["movie.mkv", "movie.mp4"]).fs =
       ["movie.mkv", "movie.mp4"] ∧
     (process_one cfgSkip envC10 "movie.mkv" ⟨0, 0, 0⟩ ["movie.mkv", "movie.mp4"]).status =
       (if lowerStr "movie.mkv" == lowerStr (finalPath "movie.mkv")
        then "SKIPPED (already MP4)" else "SKIPPED (exists)")) :=
  ⟨rfl, by decide,
    C6_skip_existing "movie.mkv" cfgSkip envC10 ⟨0, 0, 0⟩ ["movie.mkv", "movie.mp4"]
      rfl (by decide)⟩

/-- C9: for every run over any list of discovered candidate files,
scanned = converted + skipped + failed — each candidate lands in exactly
one bucket. -/
theorem C9_counter_invariant (files : List String) (config : Config) (env : Env)
    (fs : List String) :
    (process_media_library files config env fs).scanned =
      (process_media_library files config env fs).processed +
      (process_media_library files config env fs).skipped +
      (process_media_library files config env fs).failed := by
  have h := pml_loop_sum config env files ⟨0, 0, 0⟩ fs
  simp only [process_media_library]
  dsimp only at h ⊢
  omega
